import Mathlib

/-!
Pixel-buffer sizing and pooling (`buffer.go`).

A shallow embedding of `src/buffer.go`.

* Go's `int` is the 64-bit two's-complement integer: a value is an `Int` in
  `[-2^63, 2^63)`, and arithmetic that can leave the range is wrapped with
  `wrapInt`.
* Go's `uint64` is a `Nat` below `2^64`.
* A panic is the `Except.error` branch. A function that reads or changes the
  program state carries, with the panic value, the state at the moment of the
  panic.
-/

namespace Resize

/-! ## Machine integers -/

/-- The largest value of Go's 64-bit `int`. -/
def maxInt : Int := 2 ^ 63 - 1

/-- The smallest value of Go's 64-bit `int`. -/
def minInt : Int := -(2 ^ 63)

/-- Membership in the range of Go's 64-bit `int`. -/
def IsInt (v : Int) : Prop := minInt ≤ v ∧ v ≤ maxInt

instance (v : Int) : Decidable (IsInt v) := by
  unfold IsInt; infer_instance

/-- Two's-complement wrap of an unbounded integer into the `int` range. -/
def wrapInt (v : Int) : Int := (v + 2 ^ 63) % 2 ^ 64 - 2 ^ 63

/-- The conversion `uint64(v)` of an `int`: reduction modulo `2^64`. -/
def toUint64 (v : Int) : Nat := (v % 2 ^ 64).toNat

/-- The conversion `int(u)` of a `uint64`: the same 64 bits read as signed. -/
def toInt (u : Nat) : Int := wrapInt (u : Int)

/-- Go's `bits.Mul64`: the 128-bit product of two `uint64` as `(hi, lo)`. -/
def Mul64 (x y : Nat) : Nat × Nat :=
  ((x * y) / 2 ^ 64 % 2 ^ 64, (x * y) % 2 ^ 64)

/-! ## `mul3NonNeg` -/

/-- The function `mul3NonNeg` of `buffer.go`: `x * y * z`, or `-1` when an
argument is negative or a step of the computation overflows. -/
def mul3NonNeg (x y z : Int) : Int :=
  if x < 0 ∨ y < 0 ∨ z < 0 then -1
  else
    let (hi, lo) := Mul64 (toUint64 x) (toUint64 y)
    if hi ≠ 0 then -1
    else
      let (hi, lo) := Mul64 lo (toUint64 z)
      if hi ≠ 0 then -1
      else
        let a := toInt lo
        if a < 0 ∨ toUint64 a ≠ lo then -1
        else a

/-! ## Rectangles (Go's `image.Rectangle`) -/

/-- Go's `image.Point`: a pair of `int` coordinates. -/
structure Point where
  X : Int
  Y : Int
deriving DecidableEq, Repr

/-- Go's `image.Rectangle`: the points with `Min.X ≤ x < Max.X` and
`Min.Y ≤ y < Max.Y`. Nothing forces `Min ≤ Max`. -/
structure Rectangle where
  Min : Point
  Max : Point
deriving DecidableEq, Repr

/-- Go's `Rectangle.Dx`: `r.Max.X - r.Min.X` in wrapping `int` arithmetic. -/
def Rectangle.Dx (r : Rectangle) : Int := wrapInt (r.Max.X - r.Min.X)

/-- Go's `Rectangle.Dy`: `r.Max.Y - r.Min.Y` in wrapping `int` arithmetic. -/
def Rectangle.Dy (r : Rectangle) : Int := wrapInt (r.Max.Y - r.Min.Y)

/-- The rectangles a Go program can build: all four coordinates are `int`s. -/
def Rectangle.WF (r : Rectangle) : Prop :=
  IsInt r.Min.X ∧ IsInt r.Min.Y ∧ IsInt r.Max.X ∧ IsInt r.Max.Y

instance (r : Rectangle) : Decidable r.WF := by
  unfold Rectangle.WF; infer_instance

/-! ## Slices and the pool

The contents of a buffer never influence `buffer.go`, so a `[]uint8` is kept
as its slice header: which backing array it points into, its length and its
capacity. Every slice here starts at offset zero of its array. -/

/-- A `[]uint8` slice header. -/
structure Slice where
  array : Nat
  len : Nat
  cap : Nat
deriving DecidableEq, Repr

/-- The program state `buffer.go` touches: the idle blocks held by the package
variable `pool`, and the identity the next allocated backing array gets. -/
structure State where
  pool : List Slice
  nextArray : Nat
deriving DecidableEq, Repr

/-- The constant `bufferSize` of `buffer.go`. -/
def bufferSize : Int := 4 * 2048 * 2048 * 4

/-- The Go runtime's `maxAlloc` on 64-bit Linux, `2^48` bytes: `makeslice`
panics on a request above it. A request below it that the machine cannot
supply ends the process with a fatal out-of-memory error, which is no panic
and is not modelled. -/
def maxAlloc : Int := 2 ^ 48

/-- A panic in flight: the panic value and the program state at the moment of
the panic. -/
abbrev Panic := String × State

/-- Go's `make([]uint8, len, cap)`, that is the runtime's `makeslice` for
one-byte elements: it panics when the capacity is negative or above
`maxAlloc`, or the length is negative or above the capacity, and otherwise
gives a slice over a fresh backing array. -/
def make (st : State) (len cap : Int) : Except Panic (Slice × State) :=
  if cap < 0 ∨ maxAlloc < cap ∨ len < 0 ∨ cap < len then
    if len < 0 ∨ maxAlloc < len then
      .error ("runtime error: makeslice: len out of range", st)
    else .error ("runtime error: makeslice: cap out of range", st)
  else
    .ok ({ array := st.nextArray, len := len.toNat, cap := cap.toNat },
         { st with nextArray := st.nextArray + 1 })

/-- The `New` field of `pool`: `make([]uint8, 0, bufferSize)`. -/
def poolNew (st : State) : Except Panic (Slice × State) :=
  make st 0 bufferSize

/-- Go's `sync.Pool.Get` on `pool`: an idle block is removed and returned; with
no idle block, `New` makes one. The idle blocks are kept as a stack and none
is ever dropped; the real pool may hand out another idle block than the last
one put, and may drop idle blocks. -/
def poolGet (st : State) : Except Panic (Slice × State) :=
  match st.pool with
  | [] => poolNew st
  | b :: rest => .ok (b, { st with pool := rest })

/-- Go's `sync.Pool.Put` on `pool`: the block joins the idle blocks. -/
def poolPut (st : State) (b : Slice) : State :=
  { st with pool := b :: st.pool }

/-- The slice expression `s[:n]`: panics unless `0 ≤ n ≤ cap(s)`. -/
def resliceTo (s : Slice) (n : Int) : Except String Slice :=
  if 0 ≤ n ∧ n ≤ (s.cap : Int) then .ok { s with len := n.toNat }
  else .error "runtime error: slice bounds out of range"

deriving instance DecidableEq for Except

/-- A release closure: run on the current state, it yields the next state. -/
abbrev Release := State → Except Panic State

/-- The function `GetPixelBuffer` of `buffer.go`. The result is the buffer, the
release closure and the state after the call. -/
def GetPixelBuffer (st : State) (size : Int) : Except Panic (Slice × Release × State) :=
  if size ≤ bufferSize then
    match poolGet st with
    | .error p => .error p
    | .ok (blk, st1) =>
      match resliceTo blk bufferSize with
      | .error e => .error (e, st1)
      | .ok pix =>
        .ok (pix,
             (fun s => match resliceTo pix 0 with
               | .error e => .error (e, s)
               | .ok b => .ok (poolPut s b)),
             st1)
  else
    match make st size size with
    | .error p => .error p
    | .ok (pix, st1) => .ok (pix, (fun s => .ok s), st1)

/-! ## Sizing and the constructors -/

/-- The function `pixelBufferLength` of `buffer.go`. -/
def pixelBufferLength (bytesPerPixel : Int) (r : Rectangle) (imageTypeName : String) :
    Except String Int :=
  let totalLength := mul3NonNeg bytesPerPixel r.Dx r.Dy
  if totalLength < 0 then
    .error ("image: New" ++ imageTypeName ++ " Rectangle has huge or negative dimensions")
  else .ok totalLength

/-- The fields the six image types of Go's `image` package share. -/
structure Image where
  Pix : Slice
  Stride : Int
  Rect : Rectangle
deriving DecidableEq, Repr

/-- The function `NewRGBA` of `buffer.go`. -/
def NewRGBA (st : State) (r : Rectangle) : Except Panic (Image × Release × State) :=
  match pixelBufferLength 4 r "RGBA" with
  | .error e => .error (e, st)
  | .ok size =>
    match GetPixelBuffer st size with
    | .error p => .error p
    | .ok (pix, canc, st1) =>
      .ok ({ Pix := pix, Stride := wrapInt (4 * r.Dx), Rect := r }, canc, st1)

/-- The function `NewRGBA64` of `buffer.go`. -/
def NewRGBA64 (st : State) (r : Rectangle) : Except Panic (Image × Release × State) :=
  match pixelBufferLength 8 r "RGBA64" with
  | .error e => .error (e, st)
  | .ok size =>
    match GetPixelBuffer st size with
    | .error p => .error p
    | .ok (pix, canc, st1) =>
      .ok ({ Pix := pix, Stride := wrapInt (8 * r.Dx), Rect := r }, canc, st1)

/-- The function `NewGray` of `buffer.go`. -/
def NewGray (st : State) (r : Rectangle) : Except Panic (Image × Release × State) :=
  match pixelBufferLength 1 r "Gray" with
  | .error e => .error (e, st)
  | .ok size =>
    match GetPixelBuffer st size with
    | .error p => .error p
    | .ok (pix, canc, st1) =>
      .ok ({ Pix := pix, Stride := wrapInt (1 * r.Dx), Rect := r }, canc, st1)

/-- The function `NewGray16` of `buffer.go`. -/
def NewGray16 (st : State) (r : Rectangle) : Except Panic (Image × Release × State) :=
  match pixelBufferLength 2 r "Gray16" with
  | .error e => .error (e, st)
  | .ok size =>
    match GetPixelBuffer st size with
    | .error p => .error p
    | .ok (pix, canc, st1) =>
      .ok ({ Pix := pix, Stride := wrapInt (2 * r.Dx), Rect := r }, canc, st1)

/-- The function `NewNRGBA` of `buffer.go`. -/
def NewNRGBA (st : State) (r : Rectangle) : Except Panic (Image × Release × State) :=
  match pixelBufferLength 4 r "NRGBA" with
  | .error e => .error (e, st)
  | .ok size =>
    match GetPixelBuffer st size with
    | .error p => .error p
    | .ok (pix, canc, st1) =>
      .ok ({ Pix := pix, Stride := wrapInt (4 * r.Dx), Rect := r }, canc, st1)

/-- The function `NewNRGBA64` of `buffer.go`. -/
def NewNRGBA64 (st : State) (r : Rectangle) : Except Panic (Image × Release × State) :=
  match pixelBufferLength 8 r "NRGBA64" with
  | .error e => .error (e, st)
  | .ok size =>
    match GetPixelBuffer st size with
    | .error p => .error p
    | .ok (pix, canc, st1) =>
      .ok ({ Pix := pix, Stride := wrapInt (8 * r.Dx), Rect := r }, canc, st1)

/-- The six constructors of `buffer.go`, by the image type they build. -/
inductive Format where
  | RGBA | RGBA64 | Gray | Gray16 | NRGBA | NRGBA64
deriving DecidableEq, Repr

/-- The bytes-per-pixel literal the constructor passes to `pixelBufferLength`. -/
def Format.bytesPerPixel : Format → Int
  | .RGBA => 4 | .RGBA64 => 8 | .Gray => 1 | .Gray16 => 2 | .NRGBA => 4 | .NRGBA64 => 8

/-- The type-name literal the constructor passes to `pixelBufferLength`. -/
def Format.typeName : Format → String
  | .RGBA => "RGBA" | .RGBA64 => "RGBA64" | .Gray => "Gray" | .Gray16 => "Gray16"
  | .NRGBA => "NRGBA" | .NRGBA64 => "NRGBA64"

/-- The constructor of `buffer.go` for a format. -/
def Format.New : Format → State → Rectangle → Except Panic (Image × Release × State)
  | .RGBA => NewRGBA | .RGBA64 => NewRGBA64 | .Gray => NewGray | .Gray16 => NewGray16
  | .NRGBA => NewNRGBA | .NRGBA64 => NewNRGBA64

/-- Every idle block of the pool has length `0` and capacity `bufferSize`. -/
def PoolInv (st : State) : Prop :=
  ∀ b ∈ st.pool, b.len = 0 ∧ (b.cap : Int) = bufferSize

instance (st : State) : Decidable (PoolInv st) := by
  unfold PoolInv; infer_instance

/-- The state of a program that has not yet used the pool. -/
def State.init : State := { pool := [], nextArray := 0 }

/-- The rectangle `image.Rect(0, 0, w, h)`, for `0 ≤ w` and `0 ≤ h`. -/
def rectWH (w h : Int) : Rectangle := { Min := ⟨0, 0⟩, Max := ⟨w, h⟩ }

/-! ## Arithmetic of `mul3NonNeg` -/

theorem toUint64_natCast (a : Nat) (h : a < 2 ^ 64) : toUint64 (a : Int) = a := by
  unfold toUint64
  have : ((a : Int) % 2 ^ 64) = (a : Int) := Int.emod_eq_of_lt (by omega) (by omega)
  rw [this]; simp

theorem toInt_of_lt (u : Nat) (h : u < 2 ^ 63) : toInt u = (u : Int) := by
  unfold toInt wrapInt; omega

theorem toInt_neg_of_ge (u : Nat) (h1 : 2 ^ 63 ≤ u) (h2 : u < 2 ^ 64) : toInt u < 0 := by
  unfold toInt wrapInt; omega

/-- On non-negative `int` operands `mul3NonNeg` is the product when both the
intermediate product stays below `2^64` and the full product stays below
`2^63`, and `-1` otherwise. -/
theorem mul3NonNeg_natCast (a b c : Nat) (ha : a < 2 ^ 63) (hb : b < 2 ^ 63)
    (hc : c < 2 ^ 63) :
    mul3NonNeg (a : Int) (b : Int) (c : Int)
      = if a * b < 2 ^ 64 ∧ a * b * c < 2 ^ 63 then ((a * b * c : Nat) : Int) else -1 := by
  have hx := toUint64_natCast a (by omega)
  have hy := toUint64_natCast b (by omega)
  have hz := toUint64_natCast c (by omega)
  have hneg : ¬ ((a : Int) < 0 ∨ (b : Int) < 0 ∨ (c : Int) < 0) := by omega
  simp only [mul3NonNeg, hneg, if_false, hx, hy, hz, Mul64]
  have hab : a * b < 2 ^ 63 * 2 ^ 63 := by
    calc a * b ≤ 2 ^ 63 * b := Nat.mul_le_mul_right _ (by omega)
      _ < 2 ^ 63 * 2 ^ 63 := Nat.mul_lt_mul_of_pos_left hb (by norm_num)
  by_cases hp : a * b < 2 ^ 64
  · have hhi : a * b / 2 ^ 64 % 2 ^ 64 = 0 := by
      rw [Nat.div_eq_of_lt hp, Nat.zero_mod]
    rw [Nat.mod_eq_of_lt hp, if_neg (not_not.mpr hhi)]
    have hq : a * b * c < 2 ^ 64 * 2 ^ 63 := by
      calc a * b * c ≤ 2 ^ 64 * c := Nat.mul_le_mul_right _ (by omega)
        _ < 2 ^ 64 * 2 ^ 63 := Nat.mul_lt_mul_of_pos_left hc (by norm_num)
    generalize a * b * c = q at hq ⊢
    by_cases hq1 : q < 2 ^ 64
    · have hhi2 : q / 2 ^ 64 % 2 ^ 64 = 0 := by
        rw [Nat.div_eq_of_lt hq1, Nat.zero_mod]
      rw [Nat.mod_eq_of_lt hq1, if_neg (not_not.mpr hhi2)]
      by_cases hq2 : q < 2 ^ 63
      · have e := toInt_of_lt q hq2
        have h1 : ¬ ((q : Int) < 0 ∨ q ≠ q) := by simp
        rw [e, toUint64_natCast q hq1, if_neg h1, if_pos ⟨hp, hq2⟩]
      · have e := toInt_neg_of_ge q (by omega) hq1
        rw [if_pos (Or.inl e), if_neg (fun h => hq2 h.2)]
    · have hhi2 : q / 2 ^ 64 % 2 ^ 64 ≠ 0 := by omega
      rw [if_pos hhi2, if_neg (fun h => hq1 (by omega))]
  · have hhi : a * b / 2 ^ 64 % 2 ^ 64 ≠ 0 := by omega
    rw [if_pos hhi, if_neg (fun h => hp h.1)]

theorem mul3NonNeg_of_neg (x y z : Int) (h : x < 0 ∨ y < 0 ∨ z < 0) :
    mul3NonNeg x y z = -1 := by
  unfold mul3NonNeg
  rw [if_pos h]

/-- The value of `mul3NonNeg` on `int` operands, in unbounded arithmetic. -/
theorem mul3NonNeg_eq (x y z : Int) (hx : IsInt x) (hy : IsInt y) (hz : IsInt z) :
    mul3NonNeg x y z
      = if 0 ≤ x ∧ 0 ≤ y ∧ 0 ≤ z ∧ x * y < 2 ^ 64 ∧ x * y * z < 2 ^ 63
        then x * y * z else -1 := by
  by_cases hneg : x < 0 ∨ y < 0 ∨ z < 0
  · rw [mul3NonNeg_of_neg x y z hneg, if_neg]
    intro h
    omega
  · have hx0 : 0 ≤ x := by omega
    have hy0 : 0 ≤ y := by omega
    have hz0 : 0 ≤ z := by omega
    unfold IsInt maxInt minInt at hx hy hz
    lift x to Nat using hx0
    lift y to Nat using hy0
    lift z to Nat using hz0
    rw [mul3NonNeg_natCast x y z (by omega) (by omega) (by omega)]
    by_cases h : x * y < 2 ^ 64 ∧ x * y * z < 2 ^ 63
    · have h1 : ((x : Int) * y < 2 ^ 64) := by exact_mod_cast h.1
      have h2 : ((x : Int) * y * z < 2 ^ 63) := by exact_mod_cast h.2
      rw [if_pos h, if_pos ⟨Int.natCast_nonneg x, Int.natCast_nonneg y,
        Int.natCast_nonneg z, h1, h2⟩]
      push_cast
      rfl
    · rw [if_neg h, if_neg]
      rintro ⟨-, -, -, h1, h2⟩
      exact h ⟨by exact_mod_cast h1, by exact_mod_cast h2⟩

/-- The result of `mul3NonNeg` is `-1` or a non-negative `int`. -/
theorem mul3NonNeg_range (x y z : Int) :
    mul3NonNeg x y z = -1 ∨ (0 ≤ mul3NonNeg x y z ∧ mul3NonNeg x y z ≤ maxInt) := by
  simp only [mul3NonNeg, Mul64]
  split_ifs with h1 h2 h3 h4
  · exact Or.inl rfl
  · exact Or.inl rfl
  · exact Or.inl rfl
  · exact Or.inl rfl
  · right
    simp only [toInt, wrapInt, maxInt] at h4 ⊢
    omega

/-- With no zero operand, or with `x * y` below `2^64`, the value of
`mul3NonNeg` on `int` operands depends only on the signs and on the product. -/
theorem mul3NonNeg_eq_of_product (x y z : Int) (hx : IsInt x) (hy : IsInt y) (hz : IsInt z)
    (h : (x ≠ 0 ∧ y ≠ 0 ∧ z ≠ 0) ∨ x * y < 2 ^ 64) :
    mul3NonNeg x y z
      = if x < 0 ∨ y < 0 ∨ z < 0 then -1
        else if x * y * z < 2 ^ 63 then x * y * z else -1 := by
  rw [mul3NonNeg_eq x y z hx hy hz]
  by_cases hneg : x < 0 ∨ y < 0 ∨ z < 0
  · rw [if_pos hneg, if_neg]
    intro hc
    omega
  · rw [if_neg hneg]
    have hx0 : 0 ≤ x := by omega
    have hy0 : 0 ≤ y := by omega
    have hz0 : 0 ≤ z := by omega
    by_cases hp : x * y * z < 2 ^ 63
    · have hxy : x * y < 2 ^ 64 := by
        rcases h with ⟨-, -, hz1⟩ | h
        · have h2 : x * y ≤ x * y * z :=
            le_mul_of_one_le_right (mul_nonneg hx0 hy0) (by omega)
          omega
        · exact h
      rw [if_pos hp, if_pos ⟨hx0, hy0, hz0, hxy, hp⟩]
    · rw [if_neg hp, if_neg]
      intro hc
      exact hp hc.2.2.2.2

/-! ## Sizing lemmas -/

theorem bufferSize_toNat : (bufferSize.toNat : Int) = bufferSize := by decide

theorem pixelBufferLength_error (bpp : Int) (r : Rectangle) (name : String)
    (h : mul3NonNeg bpp r.Dx r.Dy = -1) :
    pixelBufferLength bpp r name
      = .error ("image: New" ++ name ++ " Rectangle has huge or negative dimensions") := by
  simp only [pixelBufferLength, h]
  rfl

theorem pixelBufferLength_ok (bpp : Int) (r : Rectangle) (name : String)
    (h : mul3NonNeg bpp r.Dx r.Dy ≠ -1) :
    pixelBufferLength bpp r name = .ok (mul3NonNeg bpp r.Dx r.Dy) := by
  have h0 : ¬ mul3NonNeg bpp r.Dx r.Dy < 0 := by
    rcases mul3NonNeg_range bpp r.Dx r.Dy with h1 | h1
    · exact absurd h1 h
    · omega
  simp only [pixelBufferLength, h0, if_false]

theorem isInt_wrapInt (v : Int) : IsInt (wrapInt v) := by
  unfold IsInt wrapInt minInt maxInt
  omega

theorem isInt_bytesPerPixel (f : Format) : IsInt f.bytesPerPixel := by
  cases f <;> decide

/-! ## The pool and `GetPixelBuffer` -/

theorem make_ok (st : State) (len cap : Int) (h0 : 0 ≤ len) (h1 : len ≤ cap)
    (h2 : cap ≤ maxAlloc) :
    make st len cap
      = .ok ({ array := st.nextArray, len := len.toNat, cap := cap.toNat },
             { st with nextArray := st.nextArray + 1 }) := by
  unfold make
  rw [if_neg (by omega)]

theorem make_len_error (st : State) (size : Int) (h : maxAlloc < size) :
    make st size size = .error ("runtime error: makeslice: len out of range", st) := by
  unfold make
  rw [if_pos (Or.inr (Or.inl h)), if_pos (Or.inr h)]

theorem poolNew_eq (st : State) :
    poolNew st
      = .ok ({ array := st.nextArray, len := 0, cap := bufferSize.toNat },
             { st with nextArray := st.nextArray + 1 }) :=
  make_ok st 0 bufferSize (by decide) (by decide) (by decide)

theorem poolGet_poolPut (s : State) (b : Slice) : poolGet (poolPut s b) = .ok (b, s) := rfl

theorem poolPut_ne (s : State) (b : Slice) : poolPut s b ≠ s := by
  intro h
  have hl := congrArg (fun t => t.pool.length) h
  simp [poolPut] at hl

theorem poolPut_inv (s : State) (b : Slice) (hs : PoolInv s) (hb : b.len = 0)
    (hc : (b.cap : Int) = bufferSize) : PoolInv (poolPut s b) := by
  intro c hcm
  simp only [poolPut, List.mem_cons] at hcm
  rcases hcm with rfl | hcm
  · exact ⟨hb, hc⟩
  · exact hs c hcm

/-- On a pool that holds only full-capacity blocks, `poolGet` returns: a block
of length `0` and capacity `bufferSize`, leaving the other idle blocks. -/
theorem poolGet_spec (st : State) (hinv : PoolInv st) :
    ∃ blk st1, poolGet st = .ok (blk, st1) ∧ blk.len = 0 ∧ (blk.cap : Int) = bufferSize ∧
      st1.pool = st.pool.tail ∧ PoolInv st1 ∧ (st.pool = [] → blk.array = st.nextArray) := by
  unfold poolGet
  cases hp : st.pool with
  | nil =>
    refine ⟨_, _, poolNew_eq st, rfl, bufferSize_toNat, hp, ?_, fun _ => rfl⟩
    intro b hb
    rw [show ({ st with nextArray := st.nextArray + 1 } : State).pool = st.pool from rfl,
      hp] at hb
    exact absurd hb (List.not_mem_nil b)
  | cons a rest =>
    have ha := hinv a (by rw [hp]; exact List.mem_cons_self a rest)
    refine ⟨a, _, rfl, ha.1, ha.2, rfl, ?_, fun h => absurd h (by simp)⟩
    intro b hb
    exact hinv b (by rw [hp]; exact List.mem_cons_of_mem a hb)

/-- The pooled path in full: the buffer is the block of `poolGet` re-sliced to
`bufferSize`, and the release puts that block, cut to length `0`, on the pool. -/
theorem GetPixelBuffer_pooled_spec (st : State) (size : Int) (hinv : PoolInv st)
    (h : size ≤ bufferSize) :
    ∃ (blk : Slice) (st1 : State) (canc : Release),
      poolGet st = .ok (blk, st1) ∧
      GetPixelBuffer st size = .ok ({ blk with len := bufferSize.toNat }, canc, st1) ∧
      (∀ s, canc s = .ok (poolPut s { blk with len := 0 })) ∧
      blk.len = 0 ∧ (blk.cap : Int) = bufferSize ∧ st1.pool = st.pool.tail ∧ PoolInv st1 ∧
      (st.pool = [] → blk.array = st.nextArray) := by
  obtain ⟨blk, st1, hg, hl, hc, hp, hi, ha⟩ := poolGet_spec st hinv
  have hr : resliceTo blk bufferSize = .ok { blk with len := bufferSize.toNat } := by
    unfold resliceTo
    rw [if_pos ⟨by decide, le_of_eq hc.symm⟩]
  have hr0 : resliceTo { blk with len := bufferSize.toNat } 0 = .ok { blk with len := 0 } := by
    unfold resliceTo
    rw [if_pos ⟨le_refl 0, Int.natCast_nonneg _⟩]
    rfl
  refine ⟨blk, st1,
    (fun s => match resliceTo { blk with len := bufferSize.toNat } 0 with
      | .error e => .error (e, s)
      | .ok b => .ok (poolPut s b)),
    hg, ?_, ?_, hl, hc, hp, hi, ha⟩
  · unfold GetPixelBuffer
    rw [if_pos h, hg]
    simp only [hr]
  · intro s
    simp only [hr0]

/-- The non-pooled path within the allocation limit: a fresh slice of `size`
bytes and a release that does nothing. -/
theorem GetPixelBuffer_large_ok (st : State) (size : Int) (h : bufferSize < size)
    (hm : size ≤ maxAlloc) :
    GetPixelBuffer st size
      = .ok ({ array := st.nextArray, len := size.toNat, cap := size.toNat },
             (fun s => .ok s), { st with nextArray := st.nextArray + 1 }) := by
  have h0 : (0 : Int) ≤ bufferSize := by decide
  unfold GetPixelBuffer
  rw [if_neg (not_le.mpr h), make_ok st size size (by omega) (le_refl _) hm]

/-- The non-pooled path above the allocation limit: `make` panics, and the
state at the panic is the state before the call. -/
theorem GetPixelBuffer_large_error (st : State) (size : Int) (hm : maxAlloc < size) :
    GetPixelBuffer st size = .error ("runtime error: makeslice: len out of range", st) := by
  have h0 : bufferSize < maxAlloc := by decide
  unfold GetPixelBuffer
  rw [if_neg (by omega), make_len_error st size hm]

/-- The length of the buffer `GetPixelBuffer` returns. -/
theorem GetPixelBuffer_len (st : State) (size : Int) (pix : Slice) (canc : Release)
    (st1 : State) (h : GetPixelBuffer st size = .ok (pix, canc, st1)) :
    (pix.len : Int) = if size ≤ bufferSize then bufferSize else size := by
  by_cases hs : size ≤ bufferSize
  · rw [if_pos hs]
    unfold GetPixelBuffer at h
    rw [if_pos hs] at h
    split at h
    · exact absurd h (by simp)
    · rename_i blk s1 _
      unfold resliceTo at h
      split_ifs at h with hc
      simp only [Except.ok.injEq, Prod.mk.injEq] at h
      rw [← h.1]
      exact bufferSize_toNat
  · rw [if_neg hs]
    have hlt : bufferSize < size := not_le.mp hs
    have h0 : (0 : Int) ≤ bufferSize := by decide
    by_cases hm : size ≤ maxAlloc
    · rw [GetPixelBuffer_large_ok st size hlt hm] at h
      simp only [Except.ok.injEq, Prod.mk.injEq] at h
      rw [← h.1]
      show ((size.toNat : Nat) : Int) = size
      omega
    · rw [GetPixelBuffer_large_error st size (not_le.mp hm)] at h
      exact absurd h (by simp)

/-- `GetPixelBuffer` returns on a pool holding only full-capacity blocks, for a
size within the allocation limit. -/
theorem GetPixelBuffer_ok (st : State) (size : Int) (hinv : PoolInv st)
    (hm : size ≤ maxAlloc) :
    ∃ pix canc st1, GetPixelBuffer st size = .ok (pix, canc, st1) := by
  by_cases hs : size ≤ bufferSize
  · obtain ⟨blk, st1, canc, -, hg, -⟩ := GetPixelBuffer_pooled_spec st size hinv hs
    exact ⟨_, canc, st1, hg⟩
  · exact ⟨_, _, _, GetPixelBuffer_large_ok st size (not_le.mp hs) hm⟩

/-! ## The constructors -/

/-- All six constructors have one shape, differing in the bytes-per-pixel and
type-name literals. -/
theorem New_eq (f : Format) (st : State) (r : Rectangle) :
    f.New st r =
      match pixelBufferLength f.bytesPerPixel r f.typeName with
      | .error e => .error (e, st)
      | .ok size =>
        match GetPixelBuffer st size with
        | .error p => .error p
        | .ok (pix, canc, st1) =>
          .ok ({ Pix := pix, Stride := wrapInt (f.bytesPerPixel * r.Dx), Rect := r }, canc, st1) := by
  cases f <;> rfl

/-- A constructor panics with the message of `pixelBufferLength`, in the state
it was called in, when `mul3NonNeg` fails. -/
theorem New_error (f : Format) (st : State) (r : Rectangle)
    (hm : mul3NonNeg f.bytesPerPixel r.Dx r.Dy = -1) :
    f.New st r
      = .error ("image: New" ++ f.typeName ++ " Rectangle has huge or negative dimensions",
                st) := by
  rw [New_eq, pixelBufferLength_error _ _ _ hm]

/-- A constructor panics inside `make`, in the state it was called in, when
the size is above the allocation limit. -/
theorem New_alloc_error (f : Format) (st : State) (r : Rectangle)
    (hm : maxAlloc < mul3NonNeg f.bytesPerPixel r.Dx r.Dy) :
    f.New st r = .error ("runtime error: makeslice: len out of range", st) := by
  have hne : mul3NonNeg f.bytesPerPixel r.Dx r.Dy ≠ -1 := by
    intro h
    rw [h] at hm
    exact absurd hm (by decide)
  rw [New_eq, pixelBufferLength_ok _ _ _ hne]
  simp only [GetPixelBuffer_large_error st _ hm]

/-- A constructor returns the image built from `GetPixelBuffer`'s buffer when
`mul3NonNeg` succeeds with a size within the allocation limit and the pool
holds only full-capacity blocks. -/
theorem New_ok (f : Format) (st : State) (r : Rectangle) (hinv : PoolInv st)
    (hm : mul3NonNeg f.bytesPerPixel r.Dx r.Dy ≠ -1)
    (ha : mul3NonNeg f.bytesPerPixel r.Dx r.Dy ≤ maxAlloc) :
    ∃ pix canc st1,
      GetPixelBuffer st (mul3NonNeg f.bytesPerPixel r.Dx r.Dy) = .ok (pix, canc, st1) ∧
      f.New st r
        = .ok ({ Pix := pix, Stride := wrapInt (f.bytesPerPixel * r.Dx), Rect := r },
               canc, st1) := by
  obtain ⟨pix, canc, st1, hg⟩ :=
    GetPixelBuffer_ok st (mul3NonNeg f.bytesPerPixel r.Dx r.Dy) hinv ha
  refine ⟨pix, canc, st1, hg, ?_⟩
  rw [New_eq, pixelBufferLength_ok _ _ _ hm]
  simp only [hg]

/-- What a returned image says about the call that built it. -/
theorem New_ok_inv (f : Format) (st : State) (r : Rectangle) (img : Image)
    (canc : Release) (st1 : State) (h : f.New st r = .ok (img, canc, st1)) :
    mul3NonNeg f.bytesPerPixel r.Dx r.Dy ≠ -1 ∧
      GetPixelBuffer st (mul3NonNeg f.bytesPerPixel r.Dx r.Dy) = .ok (img.Pix, canc, st1) ∧
      img.Stride = wrapInt (f.bytesPerPixel * r.Dx) ∧ img.Rect = r := by
  by_cases hm : mul3NonNeg f.bytesPerPixel r.Dx r.Dy = -1
  · rw [New_error f st r hm] at h
    exact absurd h (by simp)
  · refine ⟨hm, ?_⟩
    rw [New_eq, pixelBufferLength_ok _ _ _ hm] at h
    simp only at h
    split at h
    · exact absurd h (by simp)
    · rename_i pix c s1 hg
      simp only [Except.ok.injEq, Prod.mk.injEq] at h
      obtain ⟨h1, h2, h3⟩ := h
      subst h1 h2 h3
      exact ⟨hg, rfl, rfl⟩

/-! ## Claims on `mul3NonNeg` -/

/-- C1 (counterexample): `2^32 * 2^32 * 0 = 0` fits in an `int`, all three
operands are non-negative `int`s, yet `mul3NonNeg` returns `-1`, not `0`: the
first `hi != 0` guard fires on `2^32 * 2^32 = 2^64` before `z` is looked at. -/
theorem mul3NonNeg_zero_operand_rejected :
    ¬ (∀ x y z : Int, IsInt x → IsInt y → IsInt z → 0 ≤ x → 0 ≤ y → 0 ≤ z →
        x * y * z ≤ maxInt → mul3NonNeg x y z = x * y * z) := by
  intro h
  have h1 := h (2 ^ 32) (2 ^ 32) 0 (by decide) (by decide) (by decide) (by decide)
    (by decide) (by decide) (by decide)
  revert h1
  decide

/-- C1 (amended): for non-negative `int`s `x`, `y`, `z` whose exact product is
at most the largest `int`, and whose intermediate product `x * y` is below
`2^64` (which is automatic when `z ≥ 1`), `mul3NonNeg x y z` is exactly
`x * y * z`. -/
theorem mul3NonNeg_exact (x y z : Int) (hx : IsInt x) (hy : IsInt y) (hz : IsInt z)
    (hx0 : 0 ≤ x) (hy0 : 0 ≤ y) (hz0 : 0 ≤ z) (hxy : x * y < 2 ^ 64 ∨ 1 ≤ z)
    (h : x * y * z ≤ maxInt) : mul3NonNeg x y z = x * y * z := by
  have hm : x * y < 2 ^ 64 := by
    rcases hxy with h1 | h1
    · exact h1
    · have h2 : x * y ≤ x * y * z := le_mul_of_one_le_right (mul_nonneg hx0 hy0) h1
      unfold maxInt at h
      omega
  rw [mul3NonNeg_eq x y z hx hy hz, if_pos]
  refine ⟨hx0, hy0, hz0, hm, ?_⟩
  unfold maxInt at h
  omega

/-- C1 (witness): the amended claim at `4 * 100 * 50`. -/
theorem mul3NonNeg_exact_witness :
    IsInt 4 ∧ IsInt 100 ∧ IsInt 50 ∧ (4 : Int) * 100 * 50 ≤ maxInt ∧
      mul3NonNeg 4 100 50 = 4 * 100 * 50 :=
  ⟨by decide, by decide, by decide, by decide,
   mul3NonNeg_exact 4 100 50 (by decide) (by decide) (by decide) (by decide) (by decide)
     (by decide) (by decide) (by decide)⟩

/-- C2: when `mul3NonNeg x y z` is not `-1`, the three `int` operands are
non-negative and the result is the exact, unwrapped product `x * y * z`, a
value between `0` and the largest `int`. -/
theorem mul3NonNeg_success (x y z : Int) (hx : IsInt x) (hy : IsInt y) (hz : IsInt z)
    (h : mul3NonNeg x y z ≠ -1) :
    0 ≤ x ∧ 0 ≤ y ∧ 0 ≤ z ∧ 0 ≤ mul3NonNeg x y z ∧ mul3NonNeg x y z ≤ maxInt ∧
      mul3NonNeg x y z = x * y * z := by
  have hr := mul3NonNeg_range x y z
  rw [mul3NonNeg_eq x y z hx hy hz] at h hr ⊢
  by_cases hc : 0 ≤ x ∧ 0 ≤ y ∧ 0 ≤ z ∧ x * y < 2 ^ 64 ∧ x * y * z < 2 ^ 63
  · rw [if_pos hc] at h hr ⊢
    rcases hr with hr | hr
    · exact absurd hr h
    · exact ⟨hc.1, hc.2.1, hc.2.2.1, hr.1, hr.2, rfl⟩
  · rw [if_neg hc] at h
    exact absurd rfl h

/-- C2 (witness): the claim at `mul3NonNeg 4 100 50 = 20000`. -/
theorem mul3NonNeg_success_witness :
    mul3NonNeg 4 100 50 ≠ -1 ∧
      ((0 : Int) ≤ 4 ∧ (0 : Int) ≤ 100 ∧ (0 : Int) ≤ 50 ∧ 0 ≤ mul3NonNeg 4 100 50 ∧
        mul3NonNeg 4 100 50 ≤ maxInt ∧ mul3NonNeg 4 100 50 = 4 * 100 * 50) :=
  ⟨by decide, mul3NonNeg_success 4 100 50 (by decide) (by decide) (by decide) (by decide)⟩

/-- C3: for non-negative `int`s whose exact product exceeds the largest `int`,
`mul3NonNeg` returns `-1`, and `pixelBufferLength` on a rectangle of those
dimensions panics. -/
theorem mul3NonNeg_overflow (x y z : Int) (hx : IsInt x) (hy : IsInt y) (hz : IsInt z)
    (_hx0 : 0 ≤ x) (_hy0 : 0 ≤ y) (_hz0 : 0 ≤ z) (h : maxInt < x * y * z) :
    mul3NonNeg x y z = -1 ∧
      ∀ (r : Rectangle) (name : String), r.Dx = y → r.Dy = z →
        pixelBufferLength x r name
          = .error ("image: New" ++ name ++ " Rectangle has huge or negative dimensions") := by
  have hm : mul3NonNeg x y z = -1 := by
    rw [mul3NonNeg_eq x y z hx hy hz, if_neg]
    rintro ⟨-, -, -, -, h2⟩
    unfold maxInt at h
    omega
  refine ⟨hm, ?_⟩
  intro r name hdx hdy
  simp only [pixelBufferLength, hdx, hdy, hm]
  rfl

/-- C3 (witness): the claim at `8 * 2^31 * 2^31 = 2^65`. -/
theorem mul3NonNeg_overflow_witness :
    maxInt < (8 : Int) * 2 ^ 31 * 2 ^ 31 ∧ mul3NonNeg 8 (2 ^ 31) (2 ^ 31) = -1 ∧
      pixelBufferLength 8 (rectWH (2 ^ 31) (2 ^ 31)) "RGBA64"
        = .error "image: NewRGBA64 Rectangle has huge or negative dimensions" :=
  ⟨by decide,
   (mul3NonNeg_overflow 8 (2 ^ 31) (2 ^ 31) (by decide) (by decide) (by decide) (by decide)
      (by decide) (by decide) (by decide)).1,
   (mul3NonNeg_overflow 8 (2 ^ 31) (2 ^ 31) (by decide) (by decide) (by decide) (by decide)
      (by decide) (by decide) (by decide)).2 (rectWH (2 ^ 31) (2 ^ 31)) "RGBA64"
      (by decide) (by decide)⟩

/-- C4: with at least one negative operand `mul3NonNeg` returns `-1`, whatever
the other two operands are. -/
theorem mul3NonNeg_negative (x y z : Int) (h : x < 0 ∨ y < 0 ∨ z < 0) :
    mul3NonNeg x y z = -1 := by
  unfold mul3NonNeg
  rw [if_pos h]

/-- C4 (witness): `-2^62 * 4 * 1` wraps to `0` in 64 bits, and `mul3NonNeg`
still returns `-1`; so does a negative operand next to a zero one. -/
theorem mul3NonNeg_negative_witness :
    wrapInt (-(2 ^ 62) * 4 * 1) = 0 ∧ mul3NonNeg (-(2 ^ 62)) 4 1 = -1 ∧
      mul3NonNeg 0 (-1) 7 = -1 :=
  ⟨by decide, mul3NonNeg_negative (-(2 ^ 62)) 4 1 (by decide),
   mul3NonNeg_negative 0 (-1) 7 (by decide)⟩

/-! ## Claims on the constructors and `GetPixelBuffer` -/

/-- C5 (counterexample): `NewRGBA` on the `2^30 × 2^30` rectangle panics
although `mul3NonNeg 4 (2^30) (2^30)` is `2^62`, not `-1`: the size passes
`pixelBufferLength` and `make` panics on it. -/
theorem New_panics_on_allocation :
    ¬ (∀ (f : Format) (st : State) (r : Rectangle), PoolInv st →
        ((∃ p, f.New st r = .error p) ↔ mul3NonNeg f.bytesPerPixel r.Dx r.Dy = -1)) := by
  intro h
  have he : Format.RGBA.New State.init (rectWH (2 ^ 30) (2 ^ 30))
      = .error ("runtime error: makeslice: len out of range", State.init) :=
    New_alloc_error Format.RGBA State.init (rectWH (2 ^ 30) (2 ^ 30)) (by decide)
  have hm := (h Format.RGBA State.init (rectWH (2 ^ 30) (2 ^ 30)) (by decide)).mp ⟨_, he⟩
  revert hm
  decide

/-- C5 (amended): on a pool holding only full-capacity blocks, each of the six
constructors panics exactly when `mul3NonNeg bpp r.Dx r.Dy` is `-1` or is above
the runtime's allocation limit `maxAlloc`. In the first case, which includes
every rectangle of negative width such as `-1`, the panic value is the string
`"image: New" ++ name ++ " Rectangle has huge or negative dimensions"` with the
constructor's own type name; in the second it is the runtime's
`"runtime error: makeslice: len out of range"`. -/
theorem New_panics_iff (f : Format) (st : State) (r : Rectangle) (hinv : PoolInv st) :
    ((∃ p, f.New st r = .error p) ↔
      (mul3NonNeg f.bytesPerPixel r.Dx r.Dy = -1 ∨
        maxAlloc < mul3NonNeg f.bytesPerPixel r.Dx r.Dy)) ∧
    (mul3NonNeg f.bytesPerPixel r.Dx r.Dy = -1 →
      f.New st r
        = .error ("image: New" ++ f.typeName ++ " Rectangle has huge or negative dimensions",
                  st)) ∧
    (maxAlloc < mul3NonNeg f.bytesPerPixel r.Dx r.Dy →
      f.New st r = .error ("runtime error: makeslice: len out of range", st)) ∧
    (r.Dx < 0 →
      f.New st r
        = .error ("image: New" ++ f.typeName ++ " Rectangle has huge or negative dimensions",
                  st)) := by
  refine ⟨⟨?_, ?_⟩, New_error f st r, New_alloc_error f st r, ?_⟩
  · rintro ⟨p, hp⟩
    by_contra hc
    have h1 : mul3NonNeg f.bytesPerPixel r.Dx r.Dy ≠ -1 := fun h => hc (Or.inl h)
    have h2 : mul3NonNeg f.bytesPerPixel r.Dx r.Dy ≤ maxAlloc :=
      not_lt.mp (fun h => hc (Or.inr h))
    obtain ⟨pix, canc, st1, -, hn⟩ := New_ok f st r hinv h1 h2
    rw [hn] at hp
    exact absurd hp (by simp)
  · rintro (h | h)
    · exact ⟨_, New_error f st r h⟩
    · exact ⟨_, New_alloc_error f st r h⟩
  · intro hd
    exact New_error f st r (mul3NonNeg_of_neg _ _ _ (Or.inr (Or.inl hd)))

/-- C5 (witness): `NewRGBA` on a rectangle of width `-1` panics with
`"image: NewRGBA Rectangle has huge or negative dimensions"`. -/
theorem New_panics_iff_witness :
    PoolInv State.init ∧ (rectWH (-1) 5).Dx = -1 ∧
      NewRGBA State.init (rectWH (-1) 5)
        = .error ("image: NewRGBA Rectangle has huge or negative dimensions", State.init) := by
  refine ⟨by decide, by decide, ?_⟩
  have h := (New_panics_iff Format.RGBA State.init (rectWH (-1) 5) (by decide)).2.2.2
    (by decide)
  exact h.trans (congrArg Except.error (by decide))

/-- C6: whenever a constructor returns, the `Pix` buffer of the image is at
least as long as the exact product `bpp * r.Dx * r.Dy`, on the pooled and on
the non-pooled path. -/
theorem New_Pix_len_ge (f : Format) (st : State) (r : Rectangle) (img : Image)
    (canc : Release) (st1 : State) (h : f.New st r = .ok (img, canc, st1)) :
    f.bytesPerPixel * r.Dx * r.Dy ≤ (img.Pix.len : Int) := by
  obtain ⟨hm, hg, -, -⟩ := New_ok_inv f st r img canc st1 h
  have hs := mul3NonNeg_success f.bytesPerPixel r.Dx r.Dy (isInt_bytesPerPixel f)
    (isInt_wrapInt _) (isInt_wrapInt _) hm
  rw [GetPixelBuffer_len st _ img.Pix canc st1 hg, ← hs.2.2.2.2.2]
  split_ifs with hc
  · exact hc
  · exact le_refl _

/-- C6 (witness): `NewGray` on a `3 × 2` rectangle returns, with at least `6`
bytes in `Pix`. -/
theorem New_Pix_len_ge_witness :
    ∃ img canc st1, NewGray State.init (rectWH 3 2) = .ok (img, canc, st1) ∧
      (1 : Int) * (rectWH 3 2).Dx * (rectWH 3 2).Dy = 6 ∧
      (1 : Int) * (rectWH 3 2).Dx * (rectWH 3 2).Dy ≤ (img.Pix.len : Int) :=
  ⟨_, _, _, rfl, by decide,
   New_Pix_len_ge Format.Gray State.init (rectWH 3 2) _ _ _ rfl⟩

/-- C7 (the code at the failing input): `NewRGBA` on the `100 × 50` rectangle,
from the unused pool, returns an image whose `Pix` has length `67108864`
(`bufferSize`), not `4 * 100 * 50 = 20000`; its stride is `400`. -/
theorem NewRGBA_100x50_Pix_len :
    (NewRGBA State.init (rectWH 100 50)).map (fun t => (t.1.Pix.len, t.1.Stride))
        = .ok (67108864, 400) ∧
      mul3NonNeg 4 (rectWH 100 50).Dx (rectWH 100 50).Dy = 20000 := by
  decide

/-- C8 (the code at the failing input): `NewRGBA` on the rectangle with
`Dx = 2^61` and `Dy = 0` returns (the sizing product is `0`), and the stride of
the image is `-2^63`: the exact product `4 * 2^61 = 2^63` wrapped to `int`. -/
theorem NewRGBA_stride_wraps :
    (NewRGBA State.init (rectWH (2 ^ 61) 0)).map (fun t => (t.1.Stride, t.1.Rect))
        = .ok (-(2 ^ 63), rectWH (2 ^ 61) 0) ∧
      (rectWH (2 ^ 61) 0).WF ∧ (rectWH (2 ^ 61) 0).Dx = 2 ^ 61 ∧
      (rectWH (2 ^ 61) 0).Dy = 0 ∧ mul3NonNeg 4 (2 ^ 61) 0 = 0 := by
  decide

/-- C9 (the code at the failing input): `GetPixelBuffer 20000` on the unused
pool returns a slice of length `67108864` (`bufferSize`), not `20000`. -/
theorem GetPixelBuffer_20000_len :
    (GetPixelBuffer State.init 20000).map (fun t => (t.1.len, t.1.cap))
      = .ok (67108864, 67108864) := by
  decide

/-- C10 (counterexample): `GetPixelBuffer (2^50)` returns no slice: `2^50` is
above the runtime's allocation limit and `make` panics. -/
theorem GetPixelBuffer_oversized_panics :
    ¬ (∀ (st : State) (size : Int), bufferSize < size →
        ∃ pix canc st1, GetPixelBuffer st size = .ok (pix, canc, st1) ∧
          (pix.len : Int) = size) := by
  intro h
  obtain ⟨pix, canc, st1, hg, -⟩ := h State.init (2 ^ 50) (by decide)
  rw [GetPixelBuffer_large_error State.init (2 ^ 50) (by decide)] at hg
  exact absurd hg (by simp)

/-- C10 (amended): for `bufferSize < size ≤ maxAlloc`, `GetPixelBuffer` returns
a slice of length exactly `size` over a fresh backing array, leaves the idle
blocks of the pool as they were, and hands back a release that leaves any
state, so the idle blocks too, unchanged. For `size > maxAlloc` it panics in
`make`, in the state it was called in: the pool is untouched then too. -/
theorem GetPixelBuffer_oversized (st : State) (size : Int) (h : bufferSize < size) :
    (size ≤ maxAlloc →
      ∃ pix canc st1, GetPixelBuffer st size = .ok (pix, canc, st1) ∧
        (pix.len : Int) = size ∧ pix.array = st.nextArray ∧ st1.pool = st.pool ∧
        (∀ s : State, canc s = .ok s) ∧
        (canc st1).map (fun s => s.pool) = .ok st.pool) ∧
    (maxAlloc < size →
      GetPixelBuffer st size = .error ("runtime error: makeslice: len out of range", st)) := by
  refine ⟨fun hm => ?_, GetPixelBuffer_large_error st size⟩
  refine ⟨_, _, _, GetPixelBuffer_large_ok st size h hm, ?_, rfl, rfl, fun _ => rfl, rfl⟩
  have h0 : (0 : Int) ≤ bufferSize := by decide
  show ((size.toNat : Nat) : Int) = size
  omega

/-- C10 (witness): a request of `bufferSize + 1` bytes with one idle block in
the pool. -/
theorem GetPixelBuffer_oversized_witness :
    bufferSize < 67108865 ∧ (67108865 : Int) ≤ maxAlloc ∧
      ∃ pix canc st1,
        GetPixelBuffer ⟨[⟨0, 0, 67108864⟩], 1⟩ 67108865 = .ok (pix, canc, st1) ∧
        (pix.len : Int) = 67108865 ∧ pix.array = 1 ∧ st1.pool = [⟨0, 0, 67108864⟩] ∧
        (∀ s : State, canc s = .ok s) ∧
        (canc st1).map (fun s => s.pool) = .ok [⟨0, 0, 67108864⟩] :=
  ⟨by decide, by decide,
   (GetPixelBuffer_oversized ⟨[⟨0, 0, 67108864⟩], 1⟩ 67108865 (by decide)).1 (by decide)⟩

/-! ## Inverted rectangles and argument order -/

/-- C11 (counterexample): the rectangle with `Min.X = maxInt`, `Max.X = minInt`
is inverted on the x axis, yet its wrapped width is `1`, and
`pixelBufferLength 1` accepts it with length `1`. -/
theorem pixelBufferLength_inverted_accepted :
    ¬ (∀ r : Rectangle, r.WF → (r.Max.X < r.Min.X ∨ r.Max.Y < r.Min.Y) →
        ∀ bpp : Int, bpp ∈ [1, 2, 4, 8] → ∀ name : String,
          ∃ e, pixelBufferLength bpp r name = .error e) := by
  intro h
  obtain ⟨e, he⟩ := h ⟨⟨maxInt, 0⟩, ⟨minInt, 1⟩⟩ (by decide) (by decide) 1 (by decide) "Gray"
  have hv : pixelBufferLength 1 ⟨⟨maxInt, 0⟩, ⟨minInt, 1⟩⟩ "Gray" = .ok 1 := by decide
  rw [hv] at he
  exact absurd he (by simp)

/-- C11 (amended): a rectangle inverted on some axis, whose difference
`Max - Min` on that axis does not wrap (it is at least `minInt`), makes
`pixelBufferLength` panic, for every bytes-per-pixel value. -/
theorem pixelBufferLength_inverted (bpp : Int) (r : Rectangle) (name : String)
    (h : (r.Max.X < r.Min.X ∧ minInt ≤ r.Max.X - r.Min.X) ∨
         (r.Max.Y < r.Min.Y ∧ minInt ≤ r.Max.Y - r.Min.Y)) :
    pixelBufferLength bpp r name
      = .error ("image: New" ++ name ++ " Rectangle has huge or negative dimensions") := by
  apply pixelBufferLength_error
  apply mul3NonNeg_of_neg
  rcases h with ⟨h1, h2⟩ | ⟨h1, h2⟩
  · refine Or.inr (Or.inl ?_)
    unfold Rectangle.Dx wrapInt
    unfold minInt at h2
    omega
  · refine Or.inr (Or.inr ?_)
    unfold Rectangle.Dy wrapInt
    unfold minInt at h2
    omega

/-- C11 (witness): the rectangle from `(5, 0)` to `(2, 3)`, of width `-3`. -/
theorem pixelBufferLength_inverted_witness :
    (2 : Int) < 5 ∧ minInt ≤ (2 : Int) - 5 ∧
      pixelBufferLength 4 ⟨⟨5, 0⟩, ⟨2, 3⟩⟩ "RGBA"
        = .error ("image: New" ++ "RGBA" ++ " Rectangle has huge or negative dimensions") :=
  ⟨by decide, by decide,
   pixelBufferLength_inverted 4 ⟨⟨5, 0⟩, ⟨2, 3⟩⟩ "RGBA" (Or.inl ⟨by decide, by decide⟩)⟩

/-- C17 (counterexample): `mul3NonNeg 8 (2^61) 0` is `-1` while
`mul3NonNeg 8 0 (2^61)` is `0`: swapping width and height changes the result. -/
theorem mul3NonNeg_order_matters :
    ¬ (∀ x y z : Int, IsInt x → IsInt y → IsInt z →
        mul3NonNeg x y z = mul3NonNeg x z y) := by
  intro h
  have h1 := h 8 (2 ^ 61) 0 (by decide) (by decide) (by decide)
  revert h1
  decide

/-- C17 (amended): for `int` operands none of which is zero, or all of whose
pairwise products are below `2^64`, `mul3NonNeg` gives the same result on all
six orders of its arguments. -/
theorem mul3NonNeg_perm (x y z : Int) (hx : IsInt x) (hy : IsInt y) (hz : IsInt z)
    (h : (x ≠ 0 ∧ y ≠ 0 ∧ z ≠ 0) ∨ (x * y < 2 ^ 64 ∧ x * z < 2 ^ 64 ∧ y * z < 2 ^ 64)) :
    mul3NonNeg x z y = mul3NonNeg x y z ∧ mul3NonNeg y x z = mul3NonNeg x y z ∧
    mul3NonNeg y z x = mul3NonNeg x y z ∧ mul3NonNeg z x y = mul3NonNeg x y z ∧
    mul3NonNeg z y x = mul3NonNeg x y z := by
  have hxy : (x ≠ 0 ∧ y ≠ 0 ∧ z ≠ 0) ∨ x * y < 2 ^ 64 := h.imp id (fun t => t.1)
  have hxz : (x ≠ 0 ∧ z ≠ 0 ∧ y ≠ 0) ∨ x * z < 2 ^ 64 :=
    h.imp (fun t => ⟨t.1, t.2.2, t.2.1⟩) (fun t => t.2.1)
  have hyx : (y ≠ 0 ∧ x ≠ 0 ∧ z ≠ 0) ∨ y * x < 2 ^ 64 :=
    h.imp (fun t => ⟨t.2.1, t.1, t.2.2⟩) (fun t => by rw [mul_comm]; exact t.1)
  have hyz : (y ≠ 0 ∧ z ≠ 0 ∧ x ≠ 0) ∨ y * z < 2 ^ 64 :=
    h.imp (fun t => ⟨t.2.1, t.2.2, t.1⟩) (fun t => t.2.2)
  have hzx : (z ≠ 0 ∧ x ≠ 0 ∧ y ≠ 0) ∨ z * x < 2 ^ 64 :=
    h.imp (fun t => ⟨t.2.2, t.1, t.2.1⟩) (fun t => by rw [mul_comm]; exact t.2.1)
  have hzy : (z ≠ 0 ∧ y ≠ 0 ∧ x ≠ 0) ∨ z * y < 2 ^ 64 :=
    h.imp (fun t => ⟨t.2.2, t.2.1, t.1⟩) (fun t => by rw [mul_comm]; exact t.2.2)
  rw [mul3NonNeg_eq_of_product x y z hx hy hz hxy, mul3NonNeg_eq_of_product x z y hx hz hy hxz,
    mul3NonNeg_eq_of_product y x z hy hx hz hyx, mul3NonNeg_eq_of_product y z x hy hz hx hyz,
    mul3NonNeg_eq_of_product z x y hz hx hy hzx, mul3NonNeg_eq_of_product z y x hz hy hx hzy]
  have e1 : x * z * y = x * y * z := by ring
  have e2 : y * x * z = x * y * z := by ring
  have e3 : y * z * x = x * y * z := by ring
  have e4 : z * x * y = x * y * z := by ring
  have e5 : z * y * x = x * y * z := by ring
  rw [e1, e2, e3, e4, e5]
  by_cases hneg : x < 0 ∨ y < 0 ∨ z < 0
  · have n1 : x < 0 ∨ z < 0 ∨ y < 0 := by omega
    have n2 : y < 0 ∨ x < 0 ∨ z < 0 := by omega
    have n3 : y < 0 ∨ z < 0 ∨ x < 0 := by omega
    have n4 : z < 0 ∨ x < 0 ∨ y < 0 := by omega
    have n5 : z < 0 ∨ y < 0 ∨ x < 0 := by omega
    rw [if_pos hneg, if_pos n1, if_pos n2, if_pos n3, if_pos n4, if_pos n5]
    exact ⟨rfl, rfl, rfl, rfl, rfl⟩
  · have n1 : ¬ (x < 0 ∨ z < 0 ∨ y < 0) := by omega
    have n2 : ¬ (y < 0 ∨ x < 0 ∨ z < 0) := by omega
    have n3 : ¬ (y < 0 ∨ z < 0 ∨ x < 0) := by omega
    have n4 : ¬ (z < 0 ∨ x < 0 ∨ y < 0) := by omega
    have n5 : ¬ (z < 0 ∨ y < 0 ∨ x < 0) := by omega
    rw [if_neg hneg, if_neg n1, if_neg n2, if_neg n3, if_neg n4, if_neg n5]
    exact ⟨rfl, rfl, rfl, rfl, rfl⟩

/-- C17 (witness): the six orders of `4`, `100`, `50` all give `20000`. -/
theorem mul3NonNeg_perm_witness :
    mul3NonNeg 4 100 50 = 20000 ∧
      (mul3NonNeg 4 50 100 = mul3NonNeg 4 100 50 ∧ mul3NonNeg 100 4 50 = mul3NonNeg 4 100 50 ∧
       mul3NonNeg 100 50 4 = mul3NonNeg 4 100 50 ∧ mul3NonNeg 50 4 100 = mul3NonNeg 4 100 50 ∧
       mul3NonNeg 50 100 4 = mul3NonNeg 4 100 50) :=
  ⟨by decide,
   mul3NonNeg_perm 4 100 50 (by decide) (by decide) (by decide)
     (Or.inl ⟨by decide, by decide, by decide⟩)⟩

/-! ## Claims on the pool -/

/-- C12 (counterexample): `NewGray` on the rectangle of width `maxInt` and
height `1` panics although `pixelBufferLength` returned (with size `maxInt`):
the panic comes from `make`, inside `GetPixelBuffer`. -/
theorem New_panic_after_sizing :
    ¬ (∀ (f : Format) (st : State) (r : Rectangle) (p : Panic), PoolInv st →
        f.New st r = .error p →
        ∃ e, pixelBufferLength f.bytesPerPixel r f.typeName = .error e) := by
  intro h
  have he : Format.Gray.New State.init (rectWH maxInt 1)
      = .error ("runtime error: makeslice: len out of range", State.init) :=
    New_alloc_error Format.Gray State.init (rectWH maxInt 1) (by decide)
  obtain ⟨e, hp⟩ := h Format.Gray State.init (rectWH maxInt 1) _ (by decide) he
  have hv : pixelBufferLength Format.Gray.bytesPerPixel (rectWH maxInt 1)
      Format.Gray.typeName = .ok maxInt := by decide
  rw [hv] at hp
  exact absurd hp (by simp)

/-- C12 (amended): on a pool holding only full-capacity blocks, when a
constructor panics, the state at the panic is the state the constructor was
called in, so the idle blocks of the pool are as before, and no image, buffer
or release function comes back. The panic is either the one
`pixelBufferLength` raises, before `GetPixelBuffer` is called, or, for a size
above the allocation limit, the one `make` raises on the non-pooled path of
`GetPixelBuffer`; and the same panic happens from every pool state. -/
theorem New_panic_leaves_pool (f : Format) (st : State) (r : Rectangle) (e : String)
    (st' : State) (hinv : PoolInv st) (h : f.New st r = .error (e, st')) :
    st' = st ∧ st'.pool = st.pool ∧
      (pixelBufferLength f.bytesPerPixel r f.typeName = .error e ∨
        ∃ size, pixelBufferLength f.bytesPerPixel r f.typeName = .ok size ∧
          bufferSize < size ∧ make st size size = .error (e, st)) ∧
      (∀ t, f.New st r ≠ .ok t) ∧ ∀ st2 : State, f.New st2 r = .error (e, st2) := by
  have hno : ∀ t, f.New st r ≠ .ok t := by
    intro t ht
    rw [h] at ht
    exact absurd ht (by simp)
  by_cases hm : mul3NonNeg f.bytesPerPixel r.Dx r.Dy = -1
  · have he := New_error f st r hm
    rw [he] at h
    have hmsg := Except.error.inj h
    simp only [Prod.mk.injEq] at hmsg
    obtain ⟨h1, h2⟩ := hmsg
    subst h1 h2
    exact ⟨rfl, rfl, Or.inl (pixelBufferLength_error _ _ _ hm), hno,
      fun st2 => New_error f st2 r hm⟩
  · have ha : maxAlloc < mul3NonNeg f.bytesPerPixel r.Dx r.Dy := by
      by_contra hc
      obtain ⟨pix, canc, st1, -, hn⟩ := New_ok f st r hinv hm (not_lt.mp hc)
      exact hno _ hn
    have he := New_alloc_error f st r ha
    rw [he] at h
    have hmsg := Except.error.inj h
    simp only [Prod.mk.injEq] at hmsg
    obtain ⟨h1, h2⟩ := hmsg
    subst h1 h2
    have hb : bufferSize < maxAlloc := by decide
    exact ⟨rfl, rfl,
      Or.inr ⟨_, pixelBufferLength_ok _ _ _ hm, lt_trans hb ha, make_len_error st _ ha⟩,
      hno, fun st2 => New_alloc_error f st2 r ha⟩

/-- C12 (witness): `NewGray16` on a rectangle of height `-2`, with one idle
block in the pool: the panic leaves that block idle. -/
theorem New_panic_leaves_pool_witness :
    PoolInv ⟨[⟨0, 0, 67108864⟩], 1⟩ ∧
      NewGray16 ⟨[⟨0, 0, 67108864⟩], 1⟩ (rectWH 3 (-2))
        = .error ("image: NewGray16 Rectangle has huge or negative dimensions",
                  ⟨[⟨0, 0, 67108864⟩], 1⟩) ∧
      (⟨[⟨0, 0, 67108864⟩], 1⟩ : State).pool = [⟨0, 0, 67108864⟩] := by
  have h : Format.Gray16.New ⟨[⟨0, 0, 67108864⟩], 1⟩ (rectWH 3 (-2))
      = .error ("image: NewGray16 Rectangle has huge or negative dimensions",
                ⟨[⟨0, 0, 67108864⟩], 1⟩) :=
    (New_error Format.Gray16 _ _ (by decide)).trans (congrArg Except.error (by decide))
  exact ⟨by decide, h,
    (New_panic_leaves_pool Format.Gray16 ⟨[⟨0, 0, 67108864⟩], 1⟩ (rectWH 3 (-2)) _ _
      (by decide) h).2.1⟩

/-- C13: from a pool with no idle block, for `0 ≤ S' ≤ S ≤ bufferSize`:
`GetPixelBuffer S` returns a buffer; its release leaves exactly one idle block,
that buffer's block cut to length `0`; and `GetPixelBuffer S'` then returns a
buffer over the same backing array, leaving the pool empty again. -/
theorem acquire_release_reuse (st : State) (S S' : Int) (hempty : st.pool = [])
    (_h0 : 0 ≤ S') (h1 : S' ≤ S) (h2 : S ≤ bufferSize) :
    ∃ (pix : Slice) (canc : Release) (st1 st2 : State) (pix' : Slice) (canc' : Release)
      (st3 : State),
      GetPixelBuffer st S = .ok (pix, canc, st1) ∧ canc st1 = .ok st2 ∧
      st2.pool = [{ pix with len := 0 }] ∧
      GetPixelBuffer st2 S' = .ok (pix', canc', st3) ∧
      pix'.array = pix.array ∧ pix'.cap = pix.cap ∧ st3.pool = [] := by
  have hinv : PoolInv st := by
    intro b hb
    rw [hempty] at hb
    exact absurd hb (List.not_mem_nil b)
  obtain ⟨blk, st1, canc, -, hg, hrel, -, hcap, hp, hinv1, -⟩ :=
    GetPixelBuffer_pooled_spec st S hinv h2
  have hp1 : st1.pool = [] := by rw [hp, hempty]; rfl
  have hinv2 : PoolInv (poolPut st1 { blk with len := 0 }) :=
    poolPut_inv _ _ hinv1 rfl hcap
  obtain ⟨blk', st3, canc', hget', hg', -⟩ := GetPixelBuffer_pooled_spec
    (poolPut st1 { blk with len := 0 }) S' hinv2 (le_trans h1 h2)
  rw [poolGet_poolPut] at hget'
  simp only [Except.ok.injEq, Prod.mk.injEq] at hget'
  obtain ⟨hb, hs⟩ := hget'
  subst hb hs
  refine ⟨_, canc, _, _, _, canc', _, hg, hrel _, ?_, hg', rfl, rfl, hp1⟩
  simp only [poolPut, hp1]

/-- C13 (witness): acquire `20000` bytes, release, acquire `500` bytes, from
the unused pool: both buffers sit on backing array `0`. -/
theorem acquire_release_reuse_witness :
    ∃ (pix : Slice) (canc : Release) (st1 st2 : State) (pix' : Slice) (canc' : Release)
      (st3 : State),
      GetPixelBuffer State.init 20000 = .ok (pix, canc, st1) ∧ canc st1 = .ok st2 ∧
      st2.pool = [{ pix with len := 0 }] ∧
      GetPixelBuffer st2 500 = .ok (pix', canc', st3) ∧
      pix'.array = pix.array ∧ pix'.cap = pix.cap ∧ st3.pool = [] :=
  acquire_release_reuse State.init 20000 500 rfl (by decide) (by decide) (by decide)

/-- C14: `bufferSize` is `67108864 = 64 * 2^20`. On a pool holding only
full-capacity blocks and for a size within the allocation limit,
`GetPixelBuffer` returns, taking the non-pooled path (fresh slice from `make`,
release that does nothing) exactly when `size > bufferSize`, and the pooled
path (block from `poolGet`, release that puts it back) exactly when
`size ≤ bufferSize`. Above the allocation limit, so above `bufferSize`, it is
on the non-pooled path too: `make` panics. -/
theorem bufferSize_threshold (st : State) (size : Int) (hinv : PoolInv st) :
    bufferSize = 67108864 ∧ bufferSize = 64 * 2 ^ 20 ∧
    (size ≤ maxAlloc →
      ∃ (pix : Slice) (canc : Release) (st1 : State),
        GetPixelBuffer st size = .ok (pix, canc, st1) ∧
        ((∀ s, canc s = .ok s) ↔ bufferSize < size) ∧
        ((∀ s, canc s = .ok (poolPut s { pix with len := 0 })) ↔ size ≤ bufferSize) ∧
        (size ≤ bufferSize →
          ∃ blk, poolGet st = .ok (blk, st1) ∧ pix = { blk with len := bufferSize.toNat }) ∧
        (bufferSize < size → make st size size = .ok (pix, st1))) ∧
    (maxAlloc < size →
      bufferSize < size ∧
      make st size size = .error ("runtime error: makeslice: len out of range", st) ∧
      GetPixelBuffer st size = .error ("runtime error: makeslice: len out of range", st)) := by
  have hb : bufferSize < maxAlloc := by decide
  refine ⟨by decide, by decide, fun hm => ?_, fun hm =>
    ⟨lt_trans hb hm, make_len_error st size hm, GetPixelBuffer_large_error st size hm⟩⟩
  by_cases hs : size ≤ bufferSize
  · obtain ⟨blk, st1, canc, hget, hg, hrel, -⟩ := GetPixelBuffer_pooled_spec st size hinv hs
    refine ⟨_, canc, st1, hg, ⟨?_, fun h => absurd hs (not_le.mpr h)⟩,
      ⟨fun _ => hs, fun _ => hrel⟩, fun _ => ⟨blk, hget, rfl⟩,
      fun h => absurd hs (not_le.mpr h)⟩
    intro hall
    have h1 := hrel st
    rw [hall st] at h1
    exact absurd (Except.ok.inj h1).symm (poolPut_ne st _)
  · have hlt : bufferSize < size := not_le.mp hs
    have h0 : (0 : Int) ≤ bufferSize := by decide
    refine ⟨_, _, _, GetPixelBuffer_large_ok st size hlt hm, ⟨fun _ => hlt, fun _ _ => rfl⟩,
      ⟨?_, fun h => absurd h hs⟩, fun h => absurd h hs,
      fun _ => make_ok st size size (by omega) (le_refl _) hm⟩
    intro hall
    have h1 := hall st
    exact absurd (Except.ok.inj h1).symm (poolPut_ne st _)

/-- C14 (witness): on the unused pool, the release for `67108864` bytes is not
a no-op (pooled), and the release for `67108865` bytes is (not pooled). -/
theorem bufferSize_threshold_witness :
    PoolInv State.init ∧
    (∃ (pix : Slice) (canc : Release) (st1 : State),
      GetPixelBuffer State.init 67108864 = .ok (pix, canc, st1) ∧
      ¬ (∀ s, canc s = .ok s)) ∧
    (∃ (pix : Slice) (canc : Release) (st1 : State),
      GetPixelBuffer State.init 67108865 = .ok (pix, canc, st1) ∧
      (∀ s, canc s = .ok s)) := by
  refine ⟨by decide, ?_, ?_⟩
  · obtain ⟨pix, canc, st1, hg, hno, -⟩ :=
      (bufferSize_threshold State.init 67108864 (by decide)).2.2.1 (by decide)
    exact ⟨pix, canc, st1, hg, fun h => absurd (hno.mp h) (by decide)⟩
  · obtain ⟨pix, canc, st1, hg, hno, -⟩ :=
      (bufferSize_threshold State.init 67108865 (by decide)).2.2.1 (by decide)
    exact ⟨pix, canc, st1, hg, hno.mpr (by decide)⟩

/-- C16: the block `pool.New` makes has length `0` and capacity `bufferSize`;
and from a state where every idle block has length `0` and capacity
`bufferSize`, the re-slice to `bufferSize` in `GetPixelBuffer` is within
capacity and does not panic, the state `GetPixelBuffer` returns satisfies the
invariant again, and its release, run on any state satisfying the invariant,
succeeds and yields a state satisfying it. `GetPixelBuffer` returns for every
size within the allocation limit; above it, `make` panics on the non-pooled
path in the state of the call, which satisfies the invariant. -/
theorem PoolInv_preserved (st : State) (size : Int) (hinv : PoolInv st) :
    (∃ b st1, poolNew st = .ok (b, st1) ∧ b.len = 0 ∧ (b.cap : Int) = bufferSize) ∧
    (∃ blk st1 b, poolGet st = .ok (blk, st1) ∧ resliceTo blk bufferSize = .ok b) ∧
    (∀ pix canc st1, GetPixelBuffer st size = .ok (pix, canc, st1) →
      PoolInv st1 ∧ ∀ s, PoolInv s → ∃ s1, canc s = .ok s1 ∧ PoolInv s1) ∧
    (∀ e st', GetPixelBuffer st size = .error (e, st') →
      e = "runtime error: makeslice: len out of range" ∧ st' = st ∧ PoolInv st' ∧
        maxAlloc < size) ∧
    (size ≤ maxAlloc →
      ∃ (pix : Slice) (canc : Release) (st1 : State),
        GetPixelBuffer st size = .ok (pix, canc, st1) ∧ PoolInv st1 ∧
        ∀ s, PoolInv s → ∃ s1, canc s = .ok s1 ∧ PoolInv s1) := by
  obtain ⟨blk, stg, hget, -, hcap, -, hinvg, -⟩ := poolGet_spec st hinv
  have hret : ∀ pix canc st1, GetPixelBuffer st size = .ok (pix, canc, st1) →
      PoolInv st1 ∧ ∀ s, PoolInv s → ∃ s1, canc s = .ok s1 ∧ PoolInv s1 := by
    intro pix canc st1 hg
    by_cases hs : size ≤ bufferSize
    · obtain ⟨blk2, st2, canc2, -, hg2, hrel, -, hcap2, -, hinv2, -⟩ :=
        GetPixelBuffer_pooled_spec st size hinv hs
      rw [hg2] at hg
      simp only [Except.ok.injEq, Prod.mk.injEq] at hg
      obtain ⟨-, hc, hst⟩ := hg
      subst hc hst
      exact ⟨hinv2, fun s hsinv => ⟨_, hrel s, poolPut_inv s _ hsinv rfl hcap2⟩⟩
    · by_cases hm : size ≤ maxAlloc
      · rw [GetPixelBuffer_large_ok st size (not_le.mp hs) hm] at hg
        simp only [Except.ok.injEq, Prod.mk.injEq] at hg
        obtain ⟨-, hc, hst⟩ := hg
        subst hc hst
        exact ⟨fun b hb => hinv b hb, fun s hsinv => ⟨s, rfl, hsinv⟩⟩
      · rw [GetPixelBuffer_large_error st size (not_le.mp hm)] at hg
        exact absurd hg (by simp)
  refine ⟨⟨_, _, poolNew_eq st, rfl, bufferSize_toNat⟩, ?_, hret, ?_, ?_⟩
  · refine ⟨blk, stg, { blk with len := bufferSize.toNat }, hget, ?_⟩
    unfold resliceTo
    rw [if_pos ⟨by decide, le_of_eq hcap.symm⟩]
  · intro e st' he
    by_cases hm : size ≤ maxAlloc
    · obtain ⟨pix, canc, st1, hg⟩ := GetPixelBuffer_ok st size hinv hm
      rw [hg] at he
      exact absurd he (by simp)
    · rw [GetPixelBuffer_large_error st size (not_le.mp hm)] at he
      have hmsg := Except.error.inj he
      simp only [Prod.mk.injEq] at hmsg
      obtain ⟨h1, h2⟩ := hmsg
      subst h1 h2
      exact ⟨rfl, rfl, hinv, not_le.mp hm⟩
  · intro hm
    obtain ⟨pix, canc, st1, hg⟩ := GetPixelBuffer_ok st size hinv hm
    exact ⟨pix, canc, st1, hg, hret pix canc st1 hg⟩

/-- C16 (witness): the unused pool satisfies the invariant, and so does the
state after `GetPixelBuffer 20000` and the state after its release. -/
theorem PoolInv_preserved_witness :
    PoolInv State.init ∧
    ∃ (pix : Slice) (canc : Release) (st1 : State),
      GetPixelBuffer State.init 20000 = .ok (pix, canc, st1) ∧ PoolInv st1 ∧
      ∀ s, PoolInv s → ∃ s1, canc s = .ok s1 ∧ PoolInv s1 :=
  ⟨by decide, (PoolInv_preserved State.init 20000 (by decide)).2.2.2.2 (by decide)⟩

end Resize
